import Mathlib

/-!
Verification of the orchestration core of `ingresso-finder-cli` against its
natural-language specification.

The Go sources are shallowly embedded: pure functions become Lean functions,
Go `int`/`int64`/`time.Duration` become `Int` (no overflow occurs on the
reachable values, which the retry/backoff loop keeps below the cap), Go maps
become insertion-ordered association lists (iteration order only feeds
order-insensitive folds or a final sort), and file-system effects become
explicit finite-map state passing.  Floating-point display values (prices,
haversine distances) are not modeled; only the boolean `hasDistance` component
of `theaterDistanceKM`, which the merge logic actually branches on, is kept.
-/

namespace Ingresso

/-! ## Go string primitives

Go's `strings.ToLower`, `strings.TrimSpace` and byte-wise string comparison,
modeled on the character list of a `String` (the sources only ever apply them
to ASCII data, where character-wise and byte-wise agree). -/

/-- `strings.ToLower`, character-wise. -/
def goToLower (s : String) : String :=
  ⟨s.data.map Char.toLower⟩

/-- `strings.TrimSpace`: strip leading and trailing whitespace. -/
def goTrim (s : String) : String :=
  ⟨((s.data.dropWhile Char.isWhitespace).reverse.dropWhile Char.isWhitespace).reverse⟩

/-- Lexicographic strict order on character lists, Go's `<` on strings. -/
def chLt : List Char → List Char → Bool
  | [], [] => false
  | [], _ :: _ => true
  | _ :: _, [] => false
  | a :: as, b :: bs =>
    if a.toNat < b.toNat then true
    else if b.toNat < a.toNat then false
    else chLt as bs

theorem char_eq_of_toNat_eq {a b : Char} (h : a.toNat = b.toNat) : a = b := by
  have hc := Char.ofNat_toNat a
  rw [h, Char.ofNat_toNat] at hc
  exact hc.symm

/-- Go's `a < b` on strings. -/
def goStringLt (a b : String) : Bool :=
  chLt a.data b.data

/-- Non-strict companion of `goStringLt` (`a ≤ b` iff `¬ b < a`). -/
def goStringLe (a b : String) : Bool :=
  !goStringLt b a

theorem chLt_irrefl (as : List Char) : chLt as as = false := by
  induction as with
  | nil => rfl
  | cons a as ih => simp [chLt, ih]

theorem chLt_trans {as bs cs : List Char} (h1 : chLt as bs = true)
    (h2 : chLt bs cs = true) : chLt as cs = true := by
  induction as generalizing bs cs with
  | nil =>
    cases bs with
    | nil => simp [chLt] at h1
    | cons b bs =>
      cases cs with
      | nil => simp [chLt] at h2
      | cons c cs => simp [chLt]
  | cons a as ih =>
    cases bs with
    | nil => simp [chLt] at h1
    | cons b bs =>
      cases cs with
      | nil => simp [chLt] at h2
      | cons c cs =>
        simp only [chLt] at h1 h2 ⊢
        split at h1
        · split at h2
          · have : a.toNat < c.toNat := by omega
            simp [this]
          · split at h2
            · simp at h2
            · have : a.toNat < c.toNat := by omega
              simp [this]
        · split at h1
          · simp at h1
          · split at h2
            · have : a.toNat < c.toNat := by omega
              simp [this]
            · split at h2
              · simp at h2
              · have hne : ¬ a.toNat < c.toNat := by omega
                have hne2 : ¬ c.toNat < a.toNat := by omega
                simp only [hne, if_false, hne2]
                exact ih h1 h2

theorem chLt_trichotomy (as bs : List Char) :
    chLt as bs = true ∨ chLt bs as = true ∨ as = bs := by
  induction as generalizing bs with
  | nil =>
    cases bs with
    | nil => right; right; rfl
    | cons b bs => left; rfl
  | cons a as ih =>
    cases bs with
    | nil => right; left; rfl
    | cons b bs =>
      rcases Nat.lt_trichotomy a.toNat b.toNat with h | h | h
      · left; simp [chLt, h]
      · have hab : a = b := char_eq_of_toNat_eq h
        rcases ih bs with h2 | h2 | h2
        · left; simp [chLt, hab, chLt_irrefl, h2]
        · right; left; simp [chLt, hab, h2]
        · right; right; rw [hab, h2]
      · right; left; simp [chLt, h]

theorem chLt_false_trans {as bs cs : List Char} (h1 : chLt bs as = false)
    (h2 : chLt cs bs = false) : chLt cs as = false := by
  by_contra hca
  rw [Bool.not_eq_false] at hca
  rcases chLt_trichotomy bs cs with h | h | h
  · exact absurd (chLt_trans h hca) (by rw [h1]; simp)
  · exact absurd h (by rw [h2]; simp)
  · rw [← h] at hca
    exact absurd hca (by rw [h1]; simp)

theorem goStringLe_trans {a b c : String} (h1 : goStringLe a b = true)
    (h2 : goStringLe b c = true) : goStringLe a c = true := by
  simp only [goStringLe, Bool.not_eq_true'] at *
  exact chLt_false_trans h1 h2

theorem goStringLe_total (a b : String) :
    goStringLe a b = true ∨ goStringLe b a = true := by
  by_contra h
  push_neg at h
  obtain ⟨h1, h2⟩ := h
  simp only [goStringLe, goStringLt, Bool.not_eq_true, Bool.not_eq_false,
    Bool.not_eq_false'] at h1 h2
  exact absurd (chLt_trans h1 h2) (by rw [chLt_irrefl]; simp)

/-! ## Seat model (`model/checkout.go`) and seat-availability scorer (`tui/app.go`) -/

/-- `model.Seat` (model/checkout.go). -/
structure Seat where
  id : String := ""
  label : String := ""
  status : String := ""
  seatType : String := ""
  rowIndex : Int := 0
  columnIndex : Int := 0
  line : Int := 0
  column : Int := 0
deriving Repr, DecidableEq

/-- `model.SeatLine` (model/checkout.go). -/
structure SeatLine where
  line : Int := 0
  seats : List Seat := []
deriving Repr, DecidableEq

/-- `model.SeatBounds` (model/checkout.go). -/
structure SeatBounds where
  lines : Int := 0
  columns : Int := 0
deriving Repr, DecidableEq

/-- `model.SeatMap` (model/checkout.go). -/
structure SeatMap where
  id : String := ""
  bounds : SeatBounds := {}
  lines : List SeatLine := []
deriving Repr, DecidableEq

/-- `seatCount` (tui/app.go).  The `err` field (a Go error, nil in every
value `computeSeatCounts` produces) is not modeled. -/
structure seatCount where
  available : Int := 0
  occupied : Int := 0
  blocked : Int := 0
  total : Int := 0
  nonIdealAvailable : Int := 0
  idealAvailable : Int := 0
  pairAvailable : Int := 0
  loaded : Bool := false
deriving Repr, DecidableEq

/-- The seat traversal order of the Go double loop
`for _, line := range seatMap.Lines { for _, seat := range line.Seats }`. -/
def allSeats (sm : SeatMap) : List Seat :=
  sm.lines.flatMap (fun l => l.seats)

/-- Go's `sort.Ints` (ints have no equal-but-distinguishable elements, so the
unstable Go sort and this insertion sort produce the same list). -/
def sortInts (l : List Int) : List Int :=
  List.insertionSort (· ≤ ·) l

/-- `frontLineSet` (tui/app.go): the top `count` distinct positive line
numbers, as the sorted list of "front" rows (Go returns them as a set). -/
def frontLineSet (sm : SeatMap) (count : Nat) : List Int :=
  let keys := ((allSeats sm).filterMap fun s =>
    if s.line > 0 then some s.line else none).dedup
  let sorted := sortInts keys
  let c := min count sorted.length
  sorted.drop (sorted.length - c)

/-- Append column `c` to row `l`'s list in the insertion-ordered association
list that models the Go map `availableCols map[int][]int`. -/
def addCol : List (Int × List Int) → Int → Int → List (Int × List Int)
  | [], l, c => [(l, [c])]
  | (k, cs) :: rest, l, c =>
    if k = l then (k, cs ++ [c]) :: rest else (k, cs) :: addCol rest l c

/-- The greedy inner loop of `countAdjacentPairsFromCols` (tui/app.go):
left-to-right over a sorted column list, a consecutive pair consumes both
seats. -/
def greedyPairs : List Int → Int
  | a :: b :: rest => if a + 1 = b then 1 + greedyPairs rest else greedyPairs (b :: rest)
  | _ => 0

/-- `countAdjacentPairsFromCols` (tui/app.go): per row, sort the collected
columns and count greedy disjoint consecutive pairs; sum over rows (the Go
map iteration order does not matter for a sum). -/
def countAdjacentPairsFromCols (cols : List (Int × List Int)) : Int :=
  cols.foldl (fun count entry =>
    if entry.2.isEmpty then count
    else count + greedyPairs (sortInts entry.2)) 0

/-- One seat step of the scan in `computeSeatCounts` (tui/app.go). -/
def computeSeatCountsStep (front : List Int) :
    seatCount × List (Int × List Int) → Seat → seatCount × List (Int × List Int) :=
  fun (res, cols) seat =>
    let res := { res with total := res.total + 1 }
    let status := goToLower seat.status
    if status = "available" then
      let res := { res with available := res.available + 1 }
      let res :=
        if front.contains seat.line then
          { res with nonIdealAvailable := res.nonIdealAvailable + 1 }
        else res
      let cols :=
        if seat.column > 0 then addCol cols seat.line seat.column else cols
      (res, cols)
    else if status = "occupied" then
      ({ res with occupied := res.occupied + 1 }, cols)
    else if status = "blocked" ∨ status = "unavailable" then
      ({ res with blocked := res.blocked + 1 }, cols)
    else (res, cols)

/-- `computeSeatCounts` (tui/app.go). -/
def computeSeatCounts (sm : SeatMap) : seatCount :=
  let front := frontLineSet sm 3
  let st := (allSeats sm).foldl (computeSeatCountsStep front) ({}, [])
  { st.1 with
    idealAvailable := max 0 (st.1.available - st.1.nonIdealAvailable)
    pairAvailable := countAdjacentPairsFromCols st.2 }

/-! Spec-side description of the adjacent-pair count, written from the spec's
words for the refinement claim: "for each row, collect the column indices of
`available` seats, sort them, and greedily count disjoint consecutive pairs
left-to-right".  `specRowAvailableCols` is the literal reading (every
available seat's column); `specRowAvailableColsPos` adds the `column > 0`
guard that the implementation applies. -/

/-- The distinct row indices occurring in the grid, each once. -/
def rowsOf (sm : SeatMap) : List Int :=
  ((allSeats sm).map (fun s => s.line)).dedup

/-- Literal spec reading: the columns of all `available` seats of row `r`. -/
def specRowAvailableCols (sm : SeatMap) (r : Int) : List Int :=
  (allSeats sm).filterMap fun s =>
    if goToLower s.status = "available" ∧ s.line = r then some s.column else none

/-- Amended reading: only seats with a positive column index are collected. -/
def specRowAvailableColsPos (sm : SeatMap) (r : Int) : List Int :=
  (allSeats sm).filterMap fun s =>
    if goToLower s.status = "available" ∧ s.line = r ∧ s.column > 0 then
      some s.column
    else none

/-- Row-by-row pair count as the spec literally words it. -/
def pairAvailableSpec (sm : SeatMap) : Int :=
  ((rowsOf sm).map fun r => greedyPairs (sortInts (specRowAvailableCols sm r))).sum

/-- Row-by-row pair count with the implementation's positive-column guard. -/
def pairAvailableSpecPos (sm : SeatMap) : Int :=
  ((rowsOf sm).map fun r => greedyPairs (sortInts (specRowAvailableColsPos sm r))).sum

/-! ### Association-list lemmas for the `availableCols` map -/

/-- Reading a row's collected columns (Go `availableCols[r]`, `nil` when the
key is absent). -/
def lookupCols : List (Int × List Int) → Int → List Int
  | [], _ => []
  | (l, cs) :: rest, r => if l = r then cs else lookupCols rest r

theorem lookupCols_addCol (cols : List (Int × List Int)) (l c r : Int) :
    lookupCols (addCol cols l c) r =
      lookupCols cols r ++ (if l = r then [c] else []) := by
  induction cols with
  | nil => by_cases h : l = r <;> simp [addCol, lookupCols, h]
  | cons e rest ih =>
    obtain ⟨k, cs⟩ := e
    by_cases hkl : k = l
    · by_cases hkr : k = r
      · have hlr : l = r := by rw [← hkl, hkr]
        simp [addCol, lookupCols, hkl, hkr, hlr]
      · have hlr : ¬ l = r := by rw [← hkl]; exact hkr
        simp [addCol, lookupCols, hkl, hkr, hlr]
    · by_cases hkr : k = r
      · have hlr : ¬ l = r := fun h => hkl (hkr.trans h.symm)
        have hrl : ¬ r = l := fun h => hlr h.symm
        simp [addCol, lookupCols, hkl, hkr, hlr, hrl]
      · simp [addCol, lookupCols, hkl, hkr, ih]

theorem lookupCols_eq_nil_of_not_mem (cols : List (Int × List Int)) (r : Int)
    (h : r ∉ cols.map Prod.fst) : lookupCols cols r = [] := by
  induction cols with
  | nil => rfl
  | cons e rest ih =>
    obtain ⟨k, cs⟩ := e
    simp only [List.map_cons, List.mem_cons] at h
    push_neg at h
    have hk : ¬ k = r := fun hkr => h.1 hkr.symm
    simp [lookupCols, hk, ih h.2]

theorem lookupCols_ne_nil_of_mem (cols : List (Int × List Int)) (r : Int)
    (hvals : ∀ e ∈ cols, e.2 ≠ []) (h : r ∈ cols.map Prod.fst) :
    lookupCols cols r ≠ [] := by
  induction cols with
  | nil => simp at h
  | cons e rest ih =>
    obtain ⟨k, cs⟩ := e
    by_cases hk : k = r
    · subst hk
      simp only [lookupCols, if_pos rfl]
      exact hvals (k, cs) (List.mem_cons_self _ _)
    · simp only [List.map_cons, List.mem_cons] at h
      rcases h with h | h

      · exact absurd h.symm hk
      · simp only [lookupCols, if_neg hk]
        exact ih (fun e he => hvals e (List.mem_cons_of_mem _ he)) h

theorem keys_addCol (cols : List (Int × List Int)) (l c : Int) :
    (addCol cols l c).map Prod.fst =
      if l ∈ cols.map Prod.fst then cols.map Prod.fst
      else cols.map Prod.fst ++ [l] := by
  induction cols with
  | nil => simp [addCol]
  | cons e rest ih =>
    obtain ⟨k, cs⟩ := e
    by_cases hkl : k = l
    · subst hkl
      simp [addCol]
    · have : ¬ l = k := fun h => hkl h.symm
      by_cases hmem : l ∈ rest.map Prod.fst <;>
        simp [addCol, hkl, ih, hmem, this]

theorem nodup_keys_addCol (cols : List (Int × List Int)) (l c : Int)
    (h : (cols.map Prod.fst).Nodup) : ((addCol cols l c).map Prod.fst).Nodup := by
  rw [keys_addCol]
  by_cases hmem : l ∈ cols.map Prod.fst
  · simpa [hmem] using h
  · simp only [hmem, if_false]
    refine List.Nodup.append h (List.nodup_singleton l) ?_
    intro a ha hb
    simp only [List.mem_singleton] at hb
    subst hb
    exact hmem ha

theorem vals_addCol (cols : List (Int × List Int)) (l c : Int)
    (h : ∀ e ∈ cols, e.2 ≠ []) : ∀ e ∈ addCol cols l c, e.2 ≠ [] := by
  induction cols with
  | nil =>
    intro e he
    simp only [addCol, List.mem_singleton] at he
    subst he
    simp
  | cons f rest ih =>
    obtain ⟨k, cs⟩ := f
    intro e he
    by_cases hkl : k = l
    · simp only [addCol, if_pos hkl, List.mem_cons] at he
      rcases he with he1 | he2
      · subst he1; simp
      · exact h e (List.mem_cons_of_mem _ he2)
    · simp only [addCol, if_neg hkl, List.mem_cons] at he
      rcases he with he1 | he2
      · subst he1
        exact h (k, cs) (List.mem_cons_self _ _)
      · exact ih (fun x hx => h x (List.mem_cons_of_mem _ hx)) e he2

/-! ### Characterizing the seat scan -/

theorem computeSeatCountsStep_eq (front : List Int) (res : seatCount)
    (cols : List (Int × List Int)) (s : Seat) :
    computeSeatCountsStep front (res, cols) s =
      ({ res with
          total := res.total + 1
          available := res.available +
            (if goToLower s.status = "available" then 1 else 0)
          nonIdealAvailable := res.nonIdealAvailable +
            (if goToLower s.status = "available" ∧ front.contains s.line then 1 else 0)
          occupied := res.occupied +
            (if goToLower s.status = "occupied" then 1 else 0)
          blocked := res.blocked +
            (if goToLower s.status = "blocked" ∨ goToLower s.status = "unavailable" then
              1 else 0) },
       if goToLower s.status = "available" ∧ s.column > 0 then
         addCol cols s.line s.column
       else cols) := by
  by_cases h1 : goToLower s.status = "available"
  · by_cases h2 : s.line ∈ front <;> by_cases h3 : s.column > 0 <;>
      simp [computeSeatCountsStep, h1, h2, h3]
  · by_cases h4 : goToLower s.status = "occupied"
    · simp [computeSeatCountsStep, h1, h4]
    · by_cases h5 : goToLower s.status = "blocked" ∨ goToLower s.status = "unavailable"
      · simp [computeSeatCountsStep, h1, h4, h5]
      · simp [computeSeatCountsStep, h1, h4, h5]

/-- What the scan's association list holds: row by row, exactly the columns
of the available, positive-column seats, in traversal order. -/
theorem scan_lookupCols (front : List Int) (seats : List Seat)
    (res : seatCount) (cols : List (Int × List Int)) (r : Int) :
    lookupCols (seats.foldl (computeSeatCountsStep front) (res, cols)).2 r =
      lookupCols cols r ++
        seats.filterMap (fun s =>
          if goToLower s.status = "available" ∧ s.line = r ∧ s.column > 0 then
            some s.column
          else none) := by
  induction seats generalizing res cols with
  | nil => simp
  | cons s rest ih =>
    rw [List.foldl_cons, computeSeatCountsStep_eq, ih, List.filterMap_cons]
    by_cases h1 : goToLower s.status = "available"
    · by_cases h2 : s.column > 0
      · by_cases h3 : s.line = r
        · simp [h1, h2, h3, lookupCols_addCol]
        · have : ¬ s.line = r := h3
          simp [h1, h2, h3, lookupCols_addCol, this]
      · simp [h1, h2]
    · simp [h1]

theorem scan_keys_nodup (front : List Int) (seats : List Seat)
    (res : seatCount) (cols : List (Int × List Int))
    (h : (cols.map Prod.fst).Nodup) :
    (((seats.foldl (computeSeatCountsStep front) (res, cols)).2.map Prod.fst)).Nodup := by
  induction seats generalizing res cols with
  | nil => simpa using h
  | cons s rest ih =>
    rw [List.foldl_cons, computeSeatCountsStep_eq]
    by_cases hc : goToLower s.status = "available" ∧ s.column > 0
    · rw [if_pos hc]
      exact ih _ _ (nodup_keys_addCol _ _ _ h)
    · rw [if_neg hc]
      exact ih _ _ h

theorem scan_vals_ne_nil (front : List Int) (seats : List Seat)
    (res : seatCount) (cols : List (Int × List Int))
    (h : ∀ e ∈ cols, e.2 ≠ []) :
    ∀ e ∈ (seats.foldl (computeSeatCountsStep front) (res, cols)).2, e.2 ≠ [] := by
  induction seats generalizing res cols with
  | nil => simpa using h
  | cons s rest ih =>
    rw [List.foldl_cons, computeSeatCountsStep_eq]
    by_cases hc : goToLower s.status = "available" ∧ s.column > 0
    · rw [if_pos hc]
      exact ih _ _ (vals_addCol _ _ _ h)
    · rw [if_neg hc]
      exact ih _ _ h

theorem scan_keys_sub (front : List Int) (seats : List Seat)
    (res : seatCount) (cols : List (Int × List Int)) :
    ∀ r, r ∈ (seats.foldl (computeSeatCountsStep front) (res, cols)).2.map Prod.fst →
      r ∈ cols.map Prod.fst ∨ ∃ s ∈ seats, s.line = r := by
  induction seats generalizing res cols with
  | nil => intro r hr; left; simpa using hr
  | cons s rest ih =>
    intro r hr
    rw [List.foldl_cons, computeSeatCountsStep_eq] at hr
    by_cases hc : goToLower s.status = "available" ∧ s.column > 0
    · rw [if_pos hc] at hr
      rcases ih _ _ r hr with h | h
      · rw [keys_addCol] at h
        by_cases hmem : s.line ∈ cols.map Prod.fst
        · rw [if_pos hmem] at h
          exact Or.inl h
        · rw [if_neg hmem] at h
          rcases List.mem_append.mp h with h | h
          · exact Or.inl h
          · right
            refine ⟨s, List.mem_cons_self _ _, ?_⟩
            exact (List.mem_singleton.mp h).symm
      · obtain ⟨t, ht, htr⟩ := h
        exact Or.inr ⟨t, List.mem_cons_of_mem _ ht, htr⟩
    · rw [if_neg hc] at hr
      rcases ih _ _ r hr with h | h
      · exact Or.inl h
      · obtain ⟨t, ht, htr⟩ := h
        exact Or.inr ⟨t, List.mem_cons_of_mem _ ht, htr⟩

/-! ### From the fold to a per-row sum -/

theorem countAdjacentPairsFromCols_eq_sum (cols : List (Int × List Int)) :
    countAdjacentPairsFromCols cols =
      (cols.map (fun e => greedyPairs (sortInts e.2))).sum := by
  have key : ∀ (l : List (Int × List Int)) (acc : Int),
      l.foldl (fun count entry =>
        if entry.2.isEmpty then count
        else count + greedyPairs (sortInts entry.2)) acc =
      acc + (l.map (fun e => greedyPairs (sortInts e.2))).sum := by
    intro l
    induction l with
    | nil => intro acc; simp
    | cons e rest ih =>
      intro acc
      obtain ⟨k, cs⟩ := e
      cases cs with
      | nil =>
        have hg : greedyPairs (sortInts []) = 0 := rfl
        have hemp : (((k, ([] : List Int)) : Int × List Int).2.isEmpty) = true := rfl
        simp only [List.foldl_cons, hemp, eq_self_iff_true, if_true, ih,
          List.map_cons, List.sum_cons, hg]
        ring
      | cons c cs2 =>
        have hne : (((k, c :: cs2) : Int × List Int).2.isEmpty) = false := rfl
        simp only [List.foldl_cons, hne, Bool.false_eq_true, if_false, ih,
          List.map_cons, List.sum_cons]
        ring
  unfold countAdjacentPairsFromCols
  rw [key]
  ring

theorem sum_entries_eq_sum_keys (cols : List (Int × List Int))
    (h : (cols.map Prod.fst).Nodup) :
    (cols.map (fun e => greedyPairs (sortInts e.2))).sum =
      ((cols.map Prod.fst).map
        (fun r => greedyPairs (sortInts (lookupCols cols r)))).sum := by
  induction cols with
  | nil => simp
  | cons e rest ih =>
    obtain ⟨k, cs⟩ := e
    simp only [List.map_cons, List.nodup_cons] at h
    obtain ⟨hk, hrest⟩ := h
    simp only [List.map_cons, List.sum_cons]
    have hself : lookupCols ((k, cs) :: rest) k = cs := by
      simp [lookupCols]
    have hcongr : ((rest.map Prod.fst).map
        (fun r => greedyPairs (sortInts (lookupCols ((k, cs) :: rest) r)))) =
        ((rest.map Prod.fst).map
        (fun r => greedyPairs (sortInts (lookupCols rest r)))) := by
      apply List.map_congr_left
      intro r hr
      have hkr : ¬ k = r := fun hkr => hk (hkr ▸ hr)
      simp [lookupCols, hkr]
    rw [hself, hcongr, ih hrest]

/-- The per-row invariant of the count scan: non-ideal available never exceeds
available, and the three classified counters never exceed the total. -/
theorem computeSeatCountsStep_preserves (front : List Int) (res : seatCount)
    (cols : List (Int × List Int)) (s : Seat)
    (h2 : res.nonIdealAvailable ≤ res.available)
    (h3 : res.available + res.occupied + res.blocked ≤ res.total) :
    (computeSeatCountsStep front (res, cols) s).1.nonIdealAvailable ≤
        (computeSeatCountsStep front (res, cols) s).1.available ∧
      (computeSeatCountsStep front (res, cols) s).1.available +
          (computeSeatCountsStep front (res, cols) s).1.occupied +
          (computeSeatCountsStep front (res, cols) s).1.blocked ≤
        (computeSeatCountsStep front (res, cols) s).1.total := by
  rw [computeSeatCountsStep_eq]
  by_cases h1 : goToLower s.status = "available"
  · have h4 : ¬ goToLower s.status = "occupied" := by rw [h1]; simp
    have h5 : ¬ (goToLower s.status = "blocked" ∨
        goToLower s.status = "unavailable") := by rw [h1]; simp
    by_cases h6 : front.contains s.line = true <;>
      · simp [h1, h4, h5, h6]
        omega
  · by_cases h4 : goToLower s.status = "occupied"
    · have h5 : ¬ (goToLower s.status = "blocked" ∨
          goToLower s.status = "unavailable") := by rw [h4]; simp
      simp [h1, h4, h5]
      omega
    · by_cases h5 : goToLower s.status = "blocked" ∨
          goToLower s.status = "unavailable"
      · simp [h1, h4, h5]
        omega
      · simp [h1, h4, h5]
        omega

theorem scan_counts_invariant (front : List Int) (seats : List Seat) :
    ∀ (res : seatCount) (cols : List (Int × List Int)),
      res.nonIdealAvailable ≤ res.available →
      res.available + res.occupied + res.blocked ≤ res.total →
      (seats.foldl (computeSeatCountsStep front) (res, cols)).1.nonIdealAvailable ≤
          (seats.foldl (computeSeatCountsStep front) (res, cols)).1.available ∧
        (seats.foldl (computeSeatCountsStep front) (res, cols)).1.available +
            (seats.foldl (computeSeatCountsStep front) (res, cols)).1.occupied +
            (seats.foldl (computeSeatCountsStep front) (res, cols)).1.blocked ≤
          (seats.foldl (computeSeatCountsStep front) (res, cols)).1.total := by
  induction seats with
  | nil => intro res cols h2 h3; exact ⟨h2, h3⟩
  | cons s rest ih =>
    intro res cols h2 h3
    rw [List.foldl_cons]
    obtain ⟨p1, p2⟩ := computeSeatCountsStep_preserves front res cols s h2 h3
    have := ih (computeSeatCountsStep front (res, cols) s).1
      (computeSeatCountsStep front (res, cols) s).2 p1 p2
    simpa using this

/-- Plumbing: `computeSeatCounts` exposed as projections of the scan state. -/
theorem computeSeatCounts_proj (sm : SeatMap) :
    computeSeatCounts sm =
      { ((allSeats sm).foldl (computeSeatCountsStep (frontLineSet sm 3)) ({}, [])).1 with
        idealAvailable := max 0
          (((allSeats sm).foldl (computeSeatCountsStep (frontLineSet sm 3)) ({}, [])).1.available -
            ((allSeats sm).foldl (computeSeatCountsStep (frontLineSet sm 3)) ({}, [])).1.nonIdealAvailable)
        pairAvailable := countAdjacentPairsFromCols
          ((allSeats sm).foldl (computeSeatCountsStep (frontLineSet sm 3)) ({}, [])).2 } := rfl

/-- Refinement core: the scorer's `pairAvailable` equals the per-row greedy
pair count over available, positive-column seats. -/
theorem computeSeatCounts_pairAvailable (sm : SeatMap) :
    (computeSeatCounts sm).pairAvailable = pairAvailableSpecPos sm := by
  have hpair : (computeSeatCounts sm).pairAvailable =
      countAdjacentPairsFromCols
        ((allSeats sm).foldl (computeSeatCountsStep (frontLineSet sm 3)) ({}, [])).2 := by
    rw [computeSeatCounts_proj]
  set front := frontLineSet sm 3 with hfront
  set cols := ((allSeats sm).foldl (computeSeatCountsStep front) ({}, [])).2 with hcols
  have hnd : (cols.map Prod.fst).Nodup :=
    scan_keys_nodup front (allSeats sm) {} [] (by simp)
  have hvals : ∀ e ∈ cols, e.2 ≠ [] :=
    scan_vals_ne_nil front (allSeats sm) {} [] (by simp)
  have hlook : ∀ r, lookupCols cols r = specRowAvailableColsPos sm r := by
    intro r
    have h := scan_lookupCols front (allSeats sm) {} [] r
    rw [hcols]
    rw [h]
    simp [lookupCols, specRowAvailableColsPos]
  have hsub : ∀ r ∈ cols.map Prod.fst, r ∈ rowsOf sm := by
    intro r hr
    rcases scan_keys_sub front (allSeats sm) {} [] r hr with h | h
    · simp at h
    · obtain ⟨s, hs, hsr⟩ := h
      unfold rowsOf
      rw [List.mem_dedup]
      exact List.mem_map.mpr ⟨s, hs, hsr⟩
  rw [hpair, countAdjacentPairsFromCols_eq_sum, sum_entries_eq_sum_keys _ hnd]
  have hfun : ((cols.map Prod.fst).map
      (fun r => greedyPairs (sortInts (lookupCols cols r)))) =
      ((cols.map Prod.fst).map
      (fun r => greedyPairs (sortInts (specRowAvailableColsPos sm r)))) := by
    apply List.map_congr_left
    intro r _
    rw [hlook r]
  rw [hfun]
  unfold pairAvailableSpecPos
  have hndrows : (rowsOf sm).Nodup := List.nodup_dedup _
  rw [← List.sum_toFinset _ hnd, ← List.sum_toFinset _ hndrows]
  apply Finset.sum_subset
  · intro r hrf
    rw [List.mem_toFinset] at hrf ⊢
    exact hsub r hrf
  · intro r _ hnotin
    rw [List.mem_toFinset] at hnotin
    have hz : lookupCols cols r = [] := lookupCols_eq_nil_of_not_mem cols r hnotin
    rw [← hlook r, hz]
    rfl

/-- C1 counterexample: in a row holding an `available` seat at column 0 and
another at column 1, the implementation collects only the positive column
(yielding 0 pairs) while the claim's literal reading collects both columns
and counts 1 pair. -/
theorem C1_counterexample :
    (computeSeatCounts
      { lines := [{ line := 1, seats :=
          [ { status := "available", line := 1, column := 0 },
            { status := "available", line := 1, column := 1 } ] }] }).pairAvailable ≠
    pairAvailableSpec
      { lines := [{ line := 1, seats :=
          [ { status := "available", line := 1, column := 0 },
            { status := "available", line := 1, column := 1 } ] }] } := by
  decide

/-- C1 (amended): for every row, `pairAvailable` is computed by collecting the
column indices of `available` seats whose column index is positive, sorting
them ascending, and greedily counting disjoint consecutive pairs
left-to-right; a row with available columns [1,2,4,5,6] contributes exactly
2 pairs. -/
theorem C1_pairAvailable_rowwise_greedy :
    (∀ sm : SeatMap, (computeSeatCounts sm).pairAvailable = pairAvailableSpecPos sm) ∧
    (computeSeatCounts
      { lines := [{ line := 1, seats :=
          [ { status := "available", line := 1, column := 1 },
            { status := "available", line := 1, column := 2 },
            { status := "available", line := 1, column := 4 },
            { status := "available", line := 1, column := 5 },
            { status := "available", line := 1, column := 6 } ] }] }).pairAvailable = 2 :=
  ⟨computeSeatCounts_pairAvailable, by decide⟩

/-- C10: for every seat map, `idealAvailable + nonIdealAvailable = available`
(the `max(0, ...)` guard never truncates) and
`available + occupied + blocked ≤ total` (unrecognized statuses count only in
`total`). -/
theorem C10_seatCount_invariants (sm : SeatMap) :
    (computeSeatCounts sm).idealAvailable + (computeSeatCounts sm).nonIdealAvailable =
        (computeSeatCounts sm).available ∧
      (computeSeatCounts sm).available + (computeSeatCounts sm).occupied +
          (computeSeatCounts sm).blocked ≤ (computeSeatCounts sm).total := by
  obtain ⟨h1, h2⟩ := scan_counts_invariant (frontLineSet sm 3) (allSeats sm) {} []
    (by decide) (by decide)
  rw [computeSeatCounts_proj]
  constructor
  · simp only
    have hmax : max 0
        (((allSeats sm).foldl (computeSeatCountsStep (frontLineSet sm 3)) ({}, [])).1.available -
          ((allSeats sm).foldl (computeSeatCountsStep (frontLineSet sm 3)) ({}, [])).1.nonIdealAvailable) =
        ((allSeats sm).foldl (computeSeatCountsStep (frontLineSet sm 3)) ({}, [])).1.available -
          ((allSeats sm).foldl (computeSeatCountsStep (frontLineSet sm 3)) ({}, [])).1.nonIdealAvailable :=
      max_eq_right (sub_nonneg.mpr h1)
    rw [hmax]
    ring
  · exact h2

/-! ## ContentGateway retry loop (`service/tickets.go`) -/

/-- `defaultMaxAttempts` (service/tickets.go). -/
def defaultMaxAttempts : Nat := 3

/-- `defaultRetryBase` in nanoseconds: `200 * time.Millisecond`. -/
def defaultRetryBase : Int := 200 * 1000000

/-- `defaultRetryCap` in nanoseconds: `1200 * time.Millisecond`. -/
def defaultRetryCap : Int := 1200 * 1000000

/-- `shouldRetryStatus` (service/tickets.go): 429 or any 5xx. -/
def shouldRetryStatus (code : Int) : Bool :=
  code == 429 || code >= 500

/-- `shouldRetryNetworkError` (service/tickets.go): a transport error is
retried unless it is a context cancellation / deadline error. -/
def shouldRetryNetworkError (cancelled : Bool) : Bool :=
  !cancelled

/-- What `httpClient.Do` plus the body-decoding of one attempt yields, seen
from `getJSON`'s loop: a transport error (tagged with whether it is a
cancellation/deadline error), or an HTTP response with its status code,
status text and body snippet, plus the decode outcome of the body when the
status is 2xx (`some v` covers a successful decode and the tolerated
`io.EOF` empty body; `none` is a decode failure). -/
inductive HttpOutcome (α : Type) where
  | transportErr (cancelled : Bool)
  | response (code : Int) (statusText : String) (body : String) (payload : Option α)
deriving Repr, DecidableEq

/-- One scheduled attempt of the environment: the outcome `getJSON` observes,
and whether the caller's context fires during the backoff wait that would
follow this attempt (`waitRetry` returning `ctx.Err()`). -/
structure GatewayAttempt (α : Type) where
  outcome : HttpOutcome α
  waitCancelled : Bool := false
deriving Repr, DecidableEq

/-- How a `getJSON` call ends, with the 1-based number of the attempt that
terminated it. -/
inductive FetchResult (α : Type) where
  | success (payload : α) (attempts : Nat)
  | transportFailure (cancelled : Bool) (attempts : Nat)
  | apiError (code : Int) (statusText : String) (body : String) (attempts : Nat)
  | decodeFailure (attempts : Nat)
  | cancelledDuringWait (attempts : Nat)
  | exhausted (attempts : Nat)
deriving Repr, DecidableEq

/-- The retry loop of `getJSON` (service/tickets.go), driven by the list of
environment attempts still to come.  `attempt` is the Go loop counter.
`.exhausted` is reached only when the environment list under-specifies the
run (the Go loop always terminates inside an attempt, since `continue` is
guarded by `attempt < maxAttempts`). -/
def getJSONLoop {α : Type} (maxAttempts : Nat) : Nat → List (GatewayAttempt α) → FetchResult α
  | attempt, [] => .exhausted attempt
  | attempt, a :: rest =>
    match a.outcome with
    | .transportErr cancelled =>
      if shouldRetryNetworkError cancelled ∧ attempt < maxAttempts then
        if a.waitCancelled then .cancelledDuringWait attempt
        else getJSONLoop maxAttempts (attempt + 1) rest
      else .transportFailure cancelled attempt
    | .response code statusText body payload =>
      if code < 200 ∨ code ≥ 300 then
        if shouldRetryStatus code ∧ attempt < maxAttempts then
          if a.waitCancelled then .cancelledDuringWait attempt
          else getJSONLoop maxAttempts (attempt + 1) rest
        else .apiError code statusText body attempt
      else
        match payload with
        | some v => .success v attempt
        | none => .decodeFailure attempt

/-- `getJSON` (service/tickets.go): clamp `maxAttempts` to at least 1 and run
the loop from attempt 1. -/
def getJSON {α : Type} (maxAttempts : Nat) (env : List (GatewayAttempt α)) :
    FetchResult α :=
  getJSONLoop (max maxAttempts 1) 1 env

/-- An attempt outcome after which `getJSON` would retry (given budget):
non-cancellation transport errors and non-2xx responses with a retryable
status. -/
def retryableOutcome {α : Type} : HttpOutcome α → Bool
  | .transportErr cancelled => shouldRetryNetworkError cancelled
  | .response code _ _ _ =>
    decide (code < 200 ∨ code ≥ 300) && shouldRetryStatus code

/-- C2: the gateway retry policy.  (i) the default budget is 3 attempts;
(ii) a non-429 4xx answer ends the call on attempt 1 with a structured
error carrying the status; (iii) 503, 503, then 200 succeeds on attempt 3
with the decoded payload; (iv) a first attempt whose outcome is not
retryable (any cancellation error, any 2xx, any non-2xx status other than
429/5xx) decides the call by itself, irrespective of what later attempts
would have returned; (v) an outcome is retryable exactly for non-cancelled
transport errors and for statuses 429 or ≥ 500. -/
theorem C2_gateway_retry_policy :
    defaultMaxAttempts = 3 ∧
    (∀ (c : Int) (st body : String) (pl : Option Nat) (w : Bool)
        (rest : List (GatewayAttempt Nat)), 400 ≤ c → c < 500 → c ≠ 429 →
      getJSON defaultMaxAttempts (⟨.response c st body pl, w⟩ :: rest) =
        .apiError c st body 1) ∧
    (∀ (v : Nat) (st1 b1 st2 b2 st3 b3 : String),
      getJSON defaultMaxAttempts
        [⟨.response 503 st1 b1 none, false⟩,
         ⟨.response 503 st2 b2 none, false⟩,
         ⟨.response 200 st3 b3 (some v), false⟩] = .success v 3) ∧
    (∀ (a : GatewayAttempt Nat) (rest : List (GatewayAttempt Nat)),
      retryableOutcome a.outcome = false →
      getJSON defaultMaxAttempts (a :: rest) = getJSON defaultMaxAttempts [a]) ∧
    (∀ (c : Int) (st body : String) (pl : Option Nat),
      retryableOutcome (HttpOutcome.response c st body pl) = true ↔
        (c = 429 ∨ 500 ≤ c)) := by
  refine ⟨rfl, ?_, ?_, ?_, ?_⟩
  · intro c st body pl w rest h1 h2 h3
    have hrange : c < 200 ∨ c ≥ 300 := by omega
    have hretry : shouldRetryStatus c = false := by
      simp only [shouldRetryStatus, Bool.or_eq_false_iff]
      constructor
      · simpa using h3
      · simp only [decide_eq_false_iff_not]
        omega
    simp [getJSON, getJSONLoop, hrange, hretry, defaultMaxAttempts]
  · intro v st1 b1 st2 b2 st3 b3
    simp [getJSON, getJSONLoop, shouldRetryStatus, defaultMaxAttempts]
  · intro a rest hnr
    obtain ⟨o, w⟩ := a
    cases o with
    | transportErr cancelled =>
      simp only [retryableOutcome] at hnr
      simp [getJSON, getJSONLoop, hnr]
    | response code st body pl =>
      simp only [retryableOutcome, Bool.and_eq_false_iff] at hnr
      by_cases hrange : code < 200 ∨ code ≥ 300
      · have hretry : shouldRetryStatus code = false := by
          rcases hnr with h | h
          · exact absurd (by simpa using hrange) (by simpa using h)
          · exact h
        simp [getJSON, getJSONLoop, hrange, hretry]
      · cases pl with
        | some v => simp [getJSON, getJSONLoop, hrange]
        | none => simp [getJSON, getJSONLoop, hrange]
  · intro c st body pl
    simp only [retryableOutcome, shouldRetryStatus, Bool.and_eq_true,
      decide_eq_true_eq, Bool.or_eq_true, beq_iff_eq, ge_iff_le, le_refl]
    constructor
    · rintro ⟨_, h⟩
      rcases h with h | h
      · exact Or.inl h
      · right
        simpa using h
    · intro h
      rcases h with h | h
      · subst h
        refine ⟨by omega, Or.inl rfl⟩
      · exact ⟨by omega, Or.inr (by simpa using h)⟩

/-- C2 witness: concrete runs of the modeled `getJSON` through the theorem:
a 400 answer stops after one attempt, and 503/503/200 succeeds at attempt 3. -/
theorem C2_gateway_retry_policy_witness :
    getJSON defaultMaxAttempts
        [(⟨.response 400 "400 Bad Request" "bad" (none : Option Nat), false⟩ :
          GatewayAttempt Nat)] = .apiError 400 "400 Bad Request" "bad" 1 ∧
    getJSON defaultMaxAttempts
        [(⟨.response 503 "503" "later" none, false⟩ : GatewayAttempt Nat),
         ⟨.response 503 "503" "later" none, false⟩,
         ⟨.response 200 "200 OK" "" (some 7), false⟩] = .success 7 3 :=
  ⟨C2_gateway_retry_policy.2.1 400 "400 Bad Request" "bad" none false []
      (by decide) (by decide) (by decide),
    C2_gateway_retry_policy.2.2.1 7 "503" "later" "503" "later" "200 OK" ""⟩

/-- The doubling loop of `retryDelay` (service/tickets.go): `k` remaining
iterations of `for i := 1; i < attempt; i++`, current `delay`; the `cap/2`
early exit returns `cap` directly, and the post-loop check clamps to `cap`. -/
def retryDelayLoop (cap : Int) : Nat → Int → Int
  | 0, delay => if delay > cap then cap else delay
  | k + 1, delay =>
    if delay ≥ cap / 2 then cap else retryDelayLoop cap k (delay * 2)

/-- `retryDelay` (service/tickets.go), durations in nanoseconds. -/
def retryDelay (retryBase retryCap : Int) (attempt : Int) : Int :=
  let attempt := if attempt < 1 then 1 else attempt
  let base := if retryBase ≤ 0 then defaultRetryBase else retryBase
  let cap := if retryCap ≤ 0 then defaultRetryCap else retryCap
  retryDelayLoop cap (attempt - 1).toNat base

theorem retryDelayLoop_closed_form (cap : Int) (_hcap : 0 < cap)
    (heven : 2 ∣ cap) :
    ∀ (k : Nat) (d : Int), 0 < d →
      retryDelayLoop cap k d = min cap (d * 2 ^ k) := by
  intro k
  induction k with
  | zero =>
    intro d hd
    simp only [retryDelayLoop, pow_zero, mul_one, min_def]
    split_ifs <;> omega
  | succ k ih =>
    intro d hd
    obtain ⟨m, hm⟩ := heven
    simp only [retryDelayLoop]
    by_cases hhalf : d ≥ cap / 2
    · rw [if_pos hhalf]
      have hm2 : cap / 2 = m := by omega
      have h2d : cap ≤ 2 * d := by omega
      have hpow : (1 : Int) ≤ 2 ^ k := one_le_pow₀ (by norm_num)
      have : cap ≤ d * 2 ^ (k + 1) := by
        calc cap ≤ 2 * d := h2d
        _ = 2 * d * 1 := by ring
        _ ≤ 2 * d * 2 ^ k := by
            apply mul_le_mul_of_nonneg_left hpow
            omega
        _ = d * 2 ^ (k + 1) := by ring
      omega
    · rw [if_neg hhalf]
      rw [ih (d * 2) (by omega)]
      have : d * 2 * 2 ^ k = d * 2 ^ (k + 1) := by ring
      rw [this]

/-- C3 counterexample: with `base = 2` and (odd) `cap = 5`, the delay before
attempt 3 (i.e. `retryDelay` at attempt 2) is `cap = 5`, where the claimed
closed form gives `min(5, 2·2^(2-1)) = 4`: the integer `cap/2` early exit
fires one doubling early. -/
theorem C3_counterexample :
    retryDelay 2 5 2 ≠ min 5 ((2 : Int) * 2 ^ (2 - 1)) := by
  decide

/-- C3 (amended): for every attempt `n ≥ 1`, positive base, and positive
EVEN cap (in nanoseconds), the delay computed before attempt `n+1` equals
`min(cap, base·2^(n-1))`; the defaults 200ms and 1.2s are such a pair, so
the closed form holds for the shipped configuration.  (For odd caps the
`cap/2` early exit uses integer division and can return `cap` one doubling
early.) -/
theorem C3_retryDelay_closed_form :
    (∀ (base cap : Int) (n : Nat), 0 < base → 0 < cap → 2 ∣ cap → 1 ≤ n →
      retryDelay base cap (n : Int) = min cap (base * 2 ^ (n - 1))) ∧
    defaultRetryBase = 200 * 1000000 ∧ defaultRetryCap = 1200 * 1000000 ∧
    (2 : Int) ∣ defaultRetryCap := by
  refine ⟨?_, rfl, rfl, ⟨600000000, by norm_num [defaultRetryCap]⟩⟩
  intro base cap n hbase hcap heven hn
  have h1 : ¬ ((n : Int) < 1) := by omega
  have h2 : ¬ (base ≤ 0) := by omega
  have h3 : ¬ (cap ≤ 0) := by omega
  have h4 : ((n : Int) - 1).toNat = n - 1 := by omega
  simp only [retryDelay, h1, if_false, h2, h3, h4]
  exact retryDelayLoop_closed_form cap hcap heven (n - 1) base hbase

/-- C3 witness: the closed form evaluated through the theorem at the default
base and cap, attempt 4. -/
theorem C3_retryDelay_closed_form_witness :
    retryDelay defaultRetryBase defaultRetryCap ((4 : Nat) : Int) =
      min defaultRetryCap (defaultRetryBase * 2 ^ (4 - 1)) :=
  C3_retryDelay_closed_form.1 defaultRetryBase defaultRetryCap 4
    (by norm_num [defaultRetryBase]) (by norm_num [defaultRetryCap])
    ⟨600000000, by norm_num [defaultRetryCap]⟩ (by norm_num)

/-! ## Aggregation engine (tui/app.go) -/

/-- `model.Theater` (model/theater.go); the tui layer also reads a
`Geolocation` field whose float64 `Lat`/`Lng` only feed the boolean
`hasDistance` through a zero test, so the coordinates are carried at
integer precision here. -/
structure Theater where
  id : String := ""
  name : String := ""
  address : String := ""
  neighborhood : String := ""
  city : String := ""
  uf : String := ""
  urlKey : String := ""
  geoLat : Int := 0
  geoLng : Int := 0
deriving Repr, DecidableEq

/-- `model.TheaterSession` (model/theater.go); the float64 `Price` (display
only) is not modeled and `Date.LocalDate` is an abstract instant. -/
structure TheaterSession where
  id : String := ""
  room : String := ""
  sessionTypes : List String := []
  hasSeatSelection : Bool := false
  localDate : Int := 0
deriving Repr, DecidableEq

/-- `model.TheaterRoom` (model/theater.go). -/
structure TheaterRoom where
  name : String := ""
  sessions : List TheaterSession := []
deriving Repr, DecidableEq

/-- `model.TheaterMovie` (model/theater.go). -/
structure TheaterMovie where
  id : String := ""
  title : String := ""
  originalTitle : String := ""
  contentRating : String := ""
  duration : String := ""
  rooms : List TheaterRoom := []
deriving Repr, DecidableEq

/-- `model.TheaterSessionDay` (model/theater.go). -/
structure TheaterSessionDay where
  date : String := ""
  dateFormatted : String := ""
  dayOfWeek : String := ""
  isToday : Bool := false
  movies : List TheaterMovie := []
deriving Repr, DecidableEq

/-- An error carried by a theater fetch: a `*service.APIError` with its
status code, or any other Go error identified by its message. -/
inductive FetchError where
  | api (statusCode : Int) (status endpoint body : String)
  | other (msg : String)
deriving Repr, DecidableEq

/-- `service.IsNotFound` (service/tickets.go): true exactly for an
`APIError` with status 404. -/
def isNotFound : FetchError → Bool
  | .api statusCode _ _ _ => statusCode == 404
  | .other _ => false

/-- `service.UserLocation`; the aggregation only tests presence and zero
coordinates, so integer precision suffices. -/
structure UserLocation where
  latitude : Int := 0
  longitude : Int := 0
  city : String := ""
  region : String := ""
  country : String := ""
  source : String := ""
deriving Repr, DecidableEq

/-- `theaterSessionsResult` (tui/app.go): one fan-in channel element. -/
structure theaterSessionsResult where
  theater : Theater := {}
  days : List TheaterSessionDay := []
  err : Option FetchError := none
deriving Repr, DecidableEq

/-- The boolean component of `theaterDistanceKM` (tui/app.go): false when no
location is known or the theater's geocoordinates are zero; the float
distance itself is display-only and not modeled. -/
def theaterHasDistance (th : Theater) (loc : Option UserLocation) : Bool :=
  loc.isSome && !(th.geoLat == 0 && th.geoLng == 0)

/-- `sessionWithTheater` (tui/app.go), minus the float `distanceKM`. -/
structure sessionWithTheater where
  session : TheaterSession := {}
  theater : Theater := {}
  hasDistance : Bool := false
deriving Repr, DecidableEq

/-- `movieAggregate` (tui/app.go). -/
structure movieAggregate where
  movie : TheaterMovie := {}
  sessions : List sessionWithTheater := []
deriving Repr, DecidableEq

/-- `selectDay` (tui/app.go): the day whose `Date` equals the formatted
target date, else the first day; the zero value for an empty list. -/
def selectDay (days : List TheaterSessionDay) (target : String) : TheaterSessionDay :=
  match days with
  | [] => {}
  | d0 :: _ => (days.find? (fun d => d.date == target)).getD d0

/-- `movieAggregateKey` (tui/app.go). -/
def movieAggregateKey (movie : TheaterMovie) : String :=
  if goTrim movie.id ≠ "" then "id:" ++ movie.id
  else goToLower (goTrim movie.title) ++ "|" ++ goToLower (goTrim movie.originalTitle)

/-- The theater-tagged sessions one movie entry contributes, in room-then-
session order; a session with a blank `Room` inherits the room's name. -/
def movieSessions (movie : TheaterMovie) (th : Theater)
    (loc : Option UserLocation) : List sessionWithTheater :=
  movie.rooms.flatMap fun room =>
    room.sessions.map fun session =>
      let session :=
        if goTrim session.room = "" then { session with room := room.name }
        else session
      { session := session, theater := th
        hasDistance := theaterHasDistance th loc }

/-- Insert into the `byMovie` map (insertion-ordered association list): a
missing key is created with the movie record (its `Rooms` blanked, as the Go
code does on `copyMovie`), then the sessions are appended. -/
def appendToAggregate : List (String × movieAggregate) → String → TheaterMovie →
    List sessionWithTheater → List (String × movieAggregate)
  | [], key, movie, ss => [(key, { movie := { movie with rooms := [] }, sessions := ss })]
  | (k, agg) :: rest, key, movie, ss =>
    if k = key then (k, { agg with sessions := agg.sessions ++ ss }) :: rest
    else (k, agg) :: appendToAggregate rest key movie ss

/-- The inner movie loop of `aggregateMovieCatalog` over one day's movies. -/
def mergeMovies (byMovie : List (String × movieAggregate))
    (movies : List TheaterMovie) (th : Theater) (loc : Option UserLocation) :
    List (String × movieAggregate) :=
  movies.foldl
    (fun acc movie =>
      appendToAggregate acc (movieAggregateKey movie) movie (movieSessions movie th loc))
    byMovie

/-- One result consumed from the fan-in channel (`aggregateMovieCatalog`'s
`for result := range results` body): errors and empty days bump the counts,
a day with movies is merged. -/
def aggregateStep (target : String) (loc : Option UserLocation) :
    List (String × movieAggregate) × Nat × Nat → theaterSessionsResult →
    List (String × movieAggregate) × Nat × Nat :=
  fun (byMovie, failed, ignored) result =>
    match result.err with
    | some e =>
      if isNotFound e then (byMovie, failed, ignored + 1)
      else (byMovie, failed + 1, ignored)
    | none =>
      let day := selectDay result.days target
      if day.movies.isEmpty then (byMovie, failed, ignored + 1)
      else (mergeMovies byMovie day.movies result.theater loc, failed, ignored)

/-- The final catalog order: ascending by lower-cased title (Go
`sort.Slice` with `strings.ToLower(title) <`). -/
def movieLe (a b : movieAggregate) : Prop :=
  goStringLe (goToLower a.movie.title) (goToLower b.movie.title) = true

instance : DecidableRel movieLe := fun a b => by
  unfold movieLe
  infer_instance

instance : IsTrans movieAggregate movieLe :=
  ⟨fun _ _ _ h1 h2 => goStringLe_trans h1 h2⟩

instance : IsTotal movieAggregate movieLe :=
  ⟨fun _ _ => goStringLe_total _ _⟩

/-- `aggregateMovieCatalog` (tui/app.go) on the list of fan-in results in
arrival order: merge sequentially, then emit the map's values sorted
case-insensitively by title, with the failed and ignored counts.  (The Go
map's randomized iteration order feeds an unstable sort keyed only by
lower-cased title; this embedding determinizes it as a stable sort of the
insertion order, which every theorem below is insensitive to.) -/
def aggregateMovieCatalog (results : List theaterSessionsResult)
    (target : String) (loc : Option UserLocation) :
    List movieAggregate × Nat × Nat :=
  let st := results.foldl (aggregateStep target loc) ([], 0, 0)
  (List.insertionSort movieLe (st.1.map Prod.snd), st.2.1, st.2.2)

/-- The terminal message `fetchMovieCatalogCmd` (tui/app.go) builds from the
merge: an empty catalog becomes the distinguished `noSessions` outcome, still
carrying the counts. -/
inductive MovieCatalogOutcome where
  | noSessions (failed ignored : Nat)
  | catalog (movies : List movieAggregate) (failed ignored : Nat)
deriving Repr, DecidableEq

/-- The post-merge decision of `fetchMovieCatalogCmd` (tui/app.go). -/
def movieCatalogOutcome (results : List theaterSessionsResult)
    (target : String) (loc : Option UserLocation) : MovieCatalogOutcome :=
  match aggregateMovieCatalog results target loc with
  | (movies, failed, ignored) =>
    if movies.isEmpty then .noSessions failed ignored
    else .catalog movies failed ignored

/-! ### Characterizing the merge fold -/

/-- Results that bump `failed`: an error that is not "not found". -/
def isFailedResult (r : theaterSessionsResult) : Bool :=
  match r.err with
  | some e => !isNotFound e
  | none => false

/-- Results that bump `ignored`: a "not found" error, or a successful fetch
whose selected day has no movies. -/
def isIgnoredResult (target : String) (r : theaterSessionsResult) : Bool :=
  match r.err with
  | some e => isNotFound e
  | none => (selectDay r.days target).movies.isEmpty

/-- The `byMovie`-only view of one consumed result. -/
def mergeOkStep (target : String) (loc : Option UserLocation)
    (acc : List (String × movieAggregate)) (r : theaterSessionsResult) :
    List (String × movieAggregate) :=
  match r.err with
  | some _ => acc
  | none =>
    if (selectDay r.days target).movies.isEmpty then acc
    else mergeMovies acc (selectDay r.days target).movies r.theater loc

theorem aggregateFold_fst (target : String) (loc : Option UserLocation)
    (l : List theaterSessionsResult) :
    ∀ (b : List (String × movieAggregate)) (f i : Nat),
      (l.foldl (aggregateStep target loc) (b, f, i)).1 =
        l.foldl (mergeOkStep target loc) b := by
  induction l with
  | nil => intro b f i; rfl
  | cons r rest ih =>
    intro b f i
    rw [List.foldl_cons, List.foldl_cons]
    cases herr : r.err with
    | some e =>
      by_cases hnf : isNotFound e = true
      · simp only [aggregateStep, mergeOkStep, herr, hnf, if_true]
        exact ih b f (i + 1)
      · simp only [aggregateStep, mergeOkStep, herr, hnf, Bool.false_eq_true, if_false]
        exact ih b (f + 1) i
    | none =>
      by_cases hemp : (selectDay r.days target).movies.isEmpty = true
      · simp only [aggregateStep, mergeOkStep, herr, hemp, if_true]
        exact ih b f (i + 1)
      · simp only [aggregateStep, mergeOkStep, herr, hemp, Bool.false_eq_true, if_false]
        exact ih _ f i

theorem aggregateFold_counts (target : String) (loc : Option UserLocation)
    (l : List theaterSessionsResult) :
    ∀ (b : List (String × movieAggregate)) (f i : Nat),
      (l.foldl (aggregateStep target loc) (b, f, i)).2.1 =
          f + l.countP isFailedResult ∧
        (l.foldl (aggregateStep target loc) (b, f, i)).2.2 =
          i + l.countP (isIgnoredResult target) := by
  induction l with
  | nil => intro b f i; simp
  | cons r rest ih =>
    intro b f i
    rw [List.foldl_cons, List.countP_cons, List.countP_cons]
    cases herr : r.err with
    | some e =>
      by_cases hnf : isNotFound e = true
      · have hp1 : (if isFailedResult r = true then 1 else 0) = 0 := by
          simp [isFailedResult, herr, hnf]
        have hp2 : (if isIgnoredResult target r = true then 1 else 0) = 1 := by
          simp [isIgnoredResult, herr, hnf]
        simp only [aggregateStep, herr, hnf, if_true]
        obtain ⟨c1, c2⟩ := ih b f (i + 1)
        rw [c1, c2, hp1, hp2]
        omega
      · have hp1 : (if isFailedResult r = true then 1 else 0) = 1 := by
          simp [isFailedResult, herr, hnf]
        have hp2 : (if isIgnoredResult target r = true then 1 else 0) = 0 := by
          simp [isIgnoredResult, herr]
          simpa using hnf
        simp only [aggregateStep, herr, hnf, Bool.false_eq_true, if_false]
        obtain ⟨c1, c2⟩ := ih b (f + 1) i
        rw [c1, c2, hp1, hp2]
        omega
    | none =>
      by_cases hemp : (selectDay r.days target).movies.isEmpty = true
      · have hp1 : (if isFailedResult r = true then 1 else 0) = 0 := by
          simp [isFailedResult, herr]
        have hp2 : (if isIgnoredResult target r = true then 1 else 0) = 1 := by
          simp [isIgnoredResult, herr, hemp]
        simp only [aggregateStep, herr, hemp, if_true]
        obtain ⟨c1, c2⟩ := ih b f (i + 1)
        rw [c1, c2, hp1, hp2]
        omega
      · have hp1 : (if isFailedResult r = true then 1 else 0) = 0 := by
          simp [isFailedResult, herr]
        have hp2 : (if isIgnoredResult target r = true then 1 else 0) = 0 := by
          simp [isIgnoredResult, herr]
          simpa using hemp
        simp only [aggregateStep, herr, hemp, Bool.false_eq_true, if_false]
        obtain ⟨c1, c2⟩ := ih _ f i
        rw [c1, c2, hp1, hp2]
        omega

/-! ### Concrete aggregation fixtures: "Movie X" at two theaters -/

/-- "Movie X" with one 19:00 session in Room 1. -/
def movieXatA : TheaterMovie :=
  { id := "m1", title := "Movie X"
    rooms := [{ name := "Room 1", sessions := [{ id := "s1", localDate := 19 }] }] }

/-- "Movie X" with one 21:00 session in Room 2. -/
def movieXatB : TheaterMovie :=
  { id := "m1", title := "Movie X"
    rooms := [{ name := "Room 2", sessions := [{ id := "s2", localDate := 21 }] }] }

/-- Theater A's successful fetch result for 2026-02-08. -/
def resTheaterA : theaterSessionsResult :=
  { theater := { id := "t1", name := "Cinema 1" }
    days := [{ date := "2026-02-08", movies := [movieXatA] }] }

/-- Theater B's successful fetch result for 2026-02-08. -/
def resTheaterB : theaterSessionsResult :=
  { theater := { id := "t2", name := "Cinema 2" }
    days := [{ date := "2026-02-08", movies := [movieXatB] }] }

/-- A theater whose fetch failed with a 404 (`NotFound`). -/
def resNotFound : theaterSessionsResult :=
  { theater := { id := "t3", name := "Cinema 3" }
    err := some (.api 404 "404 Not Found" "/sessions" "no sessions") }

/-- C4: an error result anywhere in the arrival list leaves the merged movie
list unchanged and bumps exactly one counter — `ignored` for a `NotFound`
error, `failed` for any other error; and an empty merged catalog is reported
as the distinguished `noSessions` outcome (still carrying both counts)
rather than as a plain catalog. -/
theorem C4_partial_failure_accounting :
    (∀ (l1 l2 : List theaterSessionsResult) (r : theaterSessionsResult)
        (e : FetchError) (target : String) (loc : Option UserLocation),
      r.err = some e →
      (aggregateMovieCatalog (l1 ++ r :: l2) target loc).1 =
          (aggregateMovieCatalog (l1 ++ l2) target loc).1 ∧
        (aggregateMovieCatalog (l1 ++ r :: l2) target loc).2.1 =
          (aggregateMovieCatalog (l1 ++ l2) target loc).2.1 +
            (if isNotFound e then 0 else 1) ∧
        (aggregateMovieCatalog (l1 ++ r :: l2) target loc).2.2 =
          (aggregateMovieCatalog (l1 ++ l2) target loc).2.2 +
            (if isNotFound e then 1 else 0)) ∧
    (∀ (results : List theaterSessionsResult) (target : String)
        (loc : Option UserLocation),
      ((aggregateMovieCatalog results target loc).1 = [] →
        movieCatalogOutcome results target loc =
          .noSessions (aggregateMovieCatalog results target loc).2.1
            (aggregateMovieCatalog results target loc).2.2) ∧
      ((aggregateMovieCatalog results target loc).1 ≠ [] →
        movieCatalogOutcome results target loc =
          .catalog (aggregateMovieCatalog results target loc).1
            (aggregateMovieCatalog results target loc).2.1
            (aggregateMovieCatalog results target loc).2.2)) := by
  constructor
  · intro l1 l2 r e target loc herr
    have hmerge : ∀ acc, mergeOkStep target loc acc r = acc := by
      intro acc
      simp [mergeOkStep, herr]
    refine ⟨?_, ?_, ?_⟩
    · show List.insertionSort movieLe
          (((l1 ++ r :: l2).foldl (aggregateStep target loc) ([], 0, 0)).1.map Prod.snd) =
        List.insertionSort movieLe
          (((l1 ++ l2).foldl (aggregateStep target loc) ([], 0, 0)).1.map Prod.snd)
      rw [aggregateFold_fst, aggregateFold_fst, List.foldl_append, List.foldl_append,
        List.foldl_cons, hmerge]
    · show ((l1 ++ r :: l2).foldl (aggregateStep target loc) ([], 0, 0)).2.1 =
        ((l1 ++ l2).foldl (aggregateStep target loc) ([], 0, 0)).2.1 +
          (if isNotFound e then 0 else 1)
      rw [(aggregateFold_counts target loc _ [] 0 0).1,
        (aggregateFold_counts target loc _ [] 0 0).1,
        List.countP_append, List.countP_append, List.countP_cons]
      have : (if isFailedResult r = true then 1 else 0) =
          (if isNotFound e then 0 else 1) := by
        by_cases hnf : isNotFound e = true <;> simp [isFailedResult, herr, hnf]
      rw [this]
      omega
    · show ((l1 ++ r :: l2).foldl (aggregateStep target loc) ([], 0, 0)).2.2 =
        ((l1 ++ l2).foldl (aggregateStep target loc) ([], 0, 0)).2.2 +
          (if isNotFound e then 1 else 0)
      rw [(aggregateFold_counts target loc _ [] 0 0).2,
        (aggregateFold_counts target loc _ [] 0 0).2,
        List.countP_append, List.countP_append, List.countP_cons]
      have : (if isIgnoredResult target r = true then 1 else 0) =
          (if isNotFound e then 1 else 0) := by
        by_cases hnf : isNotFound e = true <;> simp [isIgnoredResult, herr, hnf]
      rw [this]
      omega
  · intro results target loc
    constructor
    · intro hempty
      simp [movieCatalogOutcome, hempty]
    · intro hne
      have hb : (aggregateMovieCatalog results target loc).1.isEmpty = false := by
        cases hl : (aggregateMovieCatalog results target loc).1
        · exact absurd hl hne
        · rfl
      simp [movieCatalogOutcome, hb]

/-- C4 witness: a `NotFound` theater among two successful ones keeps both
theaters' movies and bumps only `ignored`. -/
theorem C4_partial_failure_accounting_witness :
    resNotFound.err = some (.api 404 "404 Not Found" "/sessions" "no sessions") ∧
    (aggregateMovieCatalog [resTheaterA, resNotFound, resTheaterB] "2026-02-08" none).1 =
        (aggregateMovieCatalog [resTheaterA, resTheaterB] "2026-02-08" none).1 ∧
      (aggregateMovieCatalog [resTheaterA, resNotFound, resTheaterB] "2026-02-08" none).2.1 =
        (aggregateMovieCatalog [resTheaterA, resTheaterB] "2026-02-08" none).2.1 +
          (if isNotFound (.api 404 "404 Not Found" "/sessions" "no sessions") then 0 else 1) ∧
      (aggregateMovieCatalog [resTheaterA, resNotFound, resTheaterB] "2026-02-08" none).2.2 =
        (aggregateMovieCatalog [resTheaterA, resTheaterB] "2026-02-08" none).2.2 +
          (if isNotFound (.api 404 "404 Not Found" "/sessions" "no sessions") then 1 else 0) :=
  ⟨rfl, C4_partial_failure_accounting.1 [resTheaterA] [resTheaterB] resNotFound
    (.api 404 "404 Not Found" "/sessions" "no sessions") "2026-02-08" none rfl⟩

/-- C5: movies merge under key `"id:<id>"` when the trimmed id is non-blank
and under the normalized `lower(trim title)|lower(trim originalTitle)` key
otherwise; "Movie X" at theater A (19:00) and theater B (21:00) on the same
date yields exactly one aggregate whose two sessions carry their respective
theaters, with `failed = ignored = 0`; and the final catalog is always
sorted case-insensitively by title. -/
theorem C5_merge_same_movie_across_theaters :
    (∀ movie : TheaterMovie,
      (goTrim movie.id ≠ "" → movieAggregateKey movie = "id:" ++ movie.id) ∧
      (goTrim movie.id = "" →
        movieAggregateKey movie =
          goToLower (goTrim movie.title) ++ "|" ++
            goToLower (goTrim movie.originalTitle))) ∧
    ((aggregateMovieCatalog [resTheaterA, resTheaterB] "2026-02-08" none).2.1 = 0 ∧
     (aggregateMovieCatalog [resTheaterA, resTheaterB] "2026-02-08" none).2.2 = 0 ∧
     ((aggregateMovieCatalog [resTheaterA, resTheaterB] "2026-02-08" none).1.map
        (fun a => (a.movie.title,
          a.sessions.map fun s => (s.session.id, s.theater.id)))) =
       [("Movie X", [("s1", "t1"), ("s2", "t2")])]) ∧
    (∀ (results : List theaterSessionsResult) (target : String)
        (loc : Option UserLocation),
      List.Sorted movieLe (aggregateMovieCatalog results target loc).1) := by
  refine ⟨?_, ⟨by decide, by decide, by decide⟩, ?_⟩
  · intro movie
    constructor
    · intro h
      simp [movieAggregateKey, h]
    · intro h
      simp [movieAggregateKey, h]
  · intro results target loc
    exact List.sorted_insertionSort movieLe _

/-- C5 witness: the key rule applied through the theorem to a movie with an
id and to one without. -/
theorem C5_merge_same_movie_across_theaters_witness :
    (goTrim ("m1" : String) ≠ "" ∧
      movieAggregateKey { id := "m1", title := "Movie X" } = "id:" ++ "m1") ∧
    (goTrim ("  " : String) = "" ∧
      movieAggregateKey { id := "  ", title := " Movie X ", originalTitle := "X" } =
        goToLower (goTrim " Movie X ") ++ "|" ++ goToLower (goTrim "X")) :=
  ⟨⟨by decide,
    (C5_merge_same_movie_across_theaters.1 { id := "m1", title := "Movie X" }).1
      (by decide)⟩,
   ⟨by decide,
    (C5_merge_same_movie_across_theaters.1
      { id := "  ", title := " Movie X ", originalTitle := "X" }).2 (by decide)⟩⟩

/-- C6 counterexample: the same two per-theater results consumed in the two
possible arrival orders produce different catalogs — the session list inside
the "Movie X" aggregate follows arrival order. -/
theorem C6_counterexample :
    aggregateMovieCatalog [resTheaterA, resTheaterB] "2026-02-08" none ≠
      aggregateMovieCatalog [resTheaterB, resTheaterA] "2026-02-08" none := by
  decide

/-- C6 (amended): for every fixed set of per-theater results, the
failed/ignored counts of the merge are arrival-order independent (the merged
session lists themselves follow arrival order inside each aggregate, and
only the movie order is canonicalized by the final sort). -/
theorem C6_counts_arrival_order_invariant :
    ∀ (res1 res2 : List theaterSessionsResult) (target : String)
      (loc : Option UserLocation), res1.Perm res2 →
      (aggregateMovieCatalog res1 target loc).2.1 =
          (aggregateMovieCatalog res2 target loc).2.1 ∧
        (aggregateMovieCatalog res1 target loc).2.2 =
          (aggregateMovieCatalog res2 target loc).2.2 := by
  intro res1 res2 target loc hperm
  constructor
  · show (res1.foldl (aggregateStep target loc) ([], 0, 0)).2.1 =
      (res2.foldl (aggregateStep target loc) ([], 0, 0)).2.1
    rw [(aggregateFold_counts target loc _ [] 0 0).1,
      (aggregateFold_counts target loc _ [] 0 0).1,
      hperm.countP_eq]
  · show (res1.foldl (aggregateStep target loc) ([], 0, 0)).2.2 =
      (res2.foldl (aggregateStep target loc) ([], 0, 0)).2.2
    rw [(aggregateFold_counts target loc _ [] 0 0).2,
      (aggregateFold_counts target loc _ [] 0 0).2,
      hperm.countP_eq]

/-- C6 witness: the count invariance through the theorem on the two arrival
orders of the counterexample. -/
theorem C6_counts_arrival_order_invariant_witness :
    [resTheaterA, resTheaterB].Perm [resTheaterB, resTheaterA] ∧
    (aggregateMovieCatalog [resTheaterA, resTheaterB] "2026-02-08" none).2.1 =
        (aggregateMovieCatalog [resTheaterB, resTheaterA] "2026-02-08" none).2.1 ∧
      (aggregateMovieCatalog [resTheaterA, resTheaterB] "2026-02-08" none).2.2 =
        (aggregateMovieCatalog [resTheaterB, resTheaterA] "2026-02-08" none).2.2 :=
  ⟨List.Perm.swap resTheaterB resTheaterA [],
   C6_counts_arrival_order_invariant [resTheaterA, resTheaterB]
     [resTheaterB, resTheaterA] "2026-02-08" none
     (List.Perm.swap resTheaterB resTheaterA [])⟩

/-! ## Persistent cache (store package, src/unnamed/part_003) -/

/-- `model.City` (model/city file). -/
structure City where
  id : String := ""
  name : String := ""
  uf : String := ""
  state : String := ""
  urlKey : String := ""
  timeZone : String := ""
deriving Repr, DecidableEq

/-- `cityCacheTTL = 7 * 24 * time.Hour`, in nanoseconds. -/
def cityCacheTTL : Int := 7 * 24 * 3600 * 1000000000

/-- `theaterCacheTTL = 72 * time.Hour`, in nanoseconds. -/
def theaterCacheTTL : Int := 72 * 3600 * 1000000000

/-- `sessionCacheTTL = 10 * time.Minute`, in nanoseconds. -/
def sessionCacheTTL : Int := 10 * 60 * 1000000000

/-- One cache file as `loadCache` observes it: a well-formed envelope
(`updatedAt` is an instant in nanoseconds since Go's zero time, whose zero
value is 0), bytes that fail to unmarshal, or a read failure that is not
"file does not exist". -/
inductive CacheFileContents (α : Type) where
  | good (updatedAt : Int) (data : α)
  | corrupt (msg : String)
  | unreadable (msg : String)
deriving Repr, DecidableEq

/-- The cache directory contents for one payload type: path ↦ file
(`none` = missing file). -/
def CacheFS (α : Type) : Type := String → Option (CacheFileContents α)

/-- The errors the store surfaces from a load. -/
inductive CacheError where
  | io (msg : String)
  | decode (msg : String)
deriving Repr, DecidableEq

/-- `cachePath` (store): `<UserCacheDir>/ingresso-finder-cli/<name>`; the
`os.UserCacheDir` failure mode is an environment failure outside this model. -/
def cachePath (cacheDir name : String) : String :=
  cacheDir ++ "/ingresso-finder-cli/" ++ name

/-- `loadCache` (store): a missing file yields the zero envelope and no
error; unreadable or undecodable files surface their error alongside the
zero envelope. -/
def loadCache {α : Type} [Inhabited α] (fs : CacheFS α) (path : String) :
    (Int × α) × Option CacheError :=
  match fs path with
  | none => ((0, default), none)
  | some (.unreadable msg) => ((0, default), some (.io msg))
  | some (.corrupt msg) => ((0, default), some (.decode msg))
  | some (.good t data) => ((t, data), none)

/-- `saveCache` (store): whole-file overwrite of the envelope stamped with
the current instant (the directory-creation and write failure modes are
environment failures outside this model). -/
def saveCache {α : Type} (fs : CacheFS α) (path : String) (now : Int)
    (data : α) : CacheFS α :=
  fun p => if p = path then some (.good now data) else fs p

/-- `LoadCityCache` (store). -/
def LoadCityCache (fs : CacheFS (List City)) (cacheDir : String) (now : Int) :
    List City × Bool × Option CacheError :=
  match loadCache fs (cachePath cacheDir "cities.json") with
  | (_, some e) => ([], false, some e)
  | ((t, data), none) => (data, decide (now - t ≤ cityCacheTTL), none)

/-- `SaveCityCache` (store). -/
def SaveCityCache (fs : CacheFS (List City)) (cacheDir : String) (now : Int)
    (cities : List City) : CacheFS (List City) :=
  saveCache fs (cachePath cacheDir "cities.json") now cities

/-- `LoadTheaterCache` (store): key `theaters_<cityId>.json`. -/
def LoadTheaterCache (fs : CacheFS (List Theater)) (cacheDir cityID : String)
    (now : Int) : List Theater × Bool × Option CacheError :=
  match loadCache fs (cachePath cacheDir ("theaters_" ++ cityID ++ ".json")) with
  | (_, some e) => ([], false, some e)
  | ((t, data), none) => (data, decide (now - t ≤ theaterCacheTTL), none)

/-- `SaveTheaterCache` (store). -/
def SaveTheaterCache (fs : CacheFS (List Theater)) (cacheDir cityID : String)
    (now : Int) (theaters : List Theater) : CacheFS (List Theater) :=
  saveCache fs (cachePath cacheDir ("theaters_" ++ cityID ++ ".json")) now theaters

/-- `LoadSessionCache` (store): key `sessions_<cityId>_<theaterId>_<date>.json`. -/
def LoadSessionCache (fs : CacheFS (List TheaterSessionDay))
    (cacheDir cityID theaterID date : String) (now : Int) :
    List TheaterSessionDay × Bool × Option CacheError :=
  match loadCache fs
      (cachePath cacheDir
        ("sessions_" ++ cityID ++ "_" ++ theaterID ++ "_" ++ date ++ ".json")) with
  | (_, some e) => ([], false, some e)
  | ((t, data), none) => (data, decide (now - t ≤ sessionCacheTTL), none)

/-- `SaveSessionCache` (store). -/
def SaveSessionCache (fs : CacheFS (List TheaterSessionDay))
    (cacheDir cityID theaterID date : String) (now : Int)
    (days : List TheaterSessionDay) : CacheFS (List TheaterSessionDay) :=
  saveCache fs
    (cachePath cacheDir
      ("sessions_" ++ cityID ++ "_" ++ theaterID ++ "_" ++ date ++ ".json"))
    now days

/-- C7: for each cache kind, saving and then loading the same key within the
kind's TTL window (7 days for cities, 72 hours for a city's theaters,
10 minutes for sessions, as pinned by the TTL equalities) returns
`isFresh = true` with the saved data unchanged; loading after the window
with no intervening save returns `isFresh = false` (still with the data). -/
theorem C7_cache_ttl_roundtrip :
    cityCacheTTL = 7 * 24 * 3600 * 1000000000 ∧
    theaterCacheTTL = 72 * 3600 * 1000000000 ∧
    sessionCacheTTL = 10 * 60 * 1000000000 ∧
    (∀ (fs : CacheFS (List City)) (dir : String) (now now2 : Int)
        (cities : List City),
      (now ≤ now2 → now2 - now ≤ cityCacheTTL →
        LoadCityCache (SaveCityCache fs dir now cities) dir now2 =
          (cities, true, none)) ∧
      (cityCacheTTL < now2 - now →
        LoadCityCache (SaveCityCache fs dir now cities) dir now2 =
          (cities, false, none))) ∧
    (∀ (fs : CacheFS (List Theater)) (dir cityID : String) (now now2 : Int)
        (theaters : List Theater),
      (now ≤ now2 → now2 - now ≤ theaterCacheTTL →
        LoadTheaterCache (SaveTheaterCache fs dir cityID now theaters) dir cityID now2 =
          (theaters, true, none)) ∧
      (theaterCacheTTL < now2 - now →
        LoadTheaterCache (SaveTheaterCache fs dir cityID now theaters) dir cityID now2 =
          (theaters, false, none))) ∧
    (∀ (fs : CacheFS (List TheaterSessionDay))
        (dir cityID theaterID date : String) (now now2 : Int)
        (days : List TheaterSessionDay),
      (now ≤ now2 → now2 - now ≤ sessionCacheTTL →
        LoadSessionCache (SaveSessionCache fs dir cityID theaterID date now days)
          dir cityID theaterID date now2 = (days, true, none)) ∧
      (sessionCacheTTL < now2 - now →
        LoadSessionCache (SaveSessionCache fs dir cityID theaterID date now days)
          dir cityID theaterID date now2 = (days, false, none))) := by
  refine ⟨rfl, rfl, rfl, ?_, ?_, ?_⟩
  · intro fs dir now now2 cities
    constructor
    · intro _ h2
      simp [LoadCityCache, SaveCityCache, loadCache, saveCache, h2]
    · intro h
      have h2 : ¬ (now2 - now ≤ cityCacheTTL) := by omega
      simp [LoadCityCache, SaveCityCache, loadCache, saveCache, h2]
  · intro fs dir cityID now now2 theaters
    constructor
    · intro _ h2
      simp [LoadTheaterCache, SaveTheaterCache, loadCache, saveCache, h2]
    · intro h
      have h2 : ¬ (now2 - now ≤ theaterCacheTTL) := by omega
      simp [LoadTheaterCache, SaveTheaterCache, loadCache, saveCache, h2]
  · intro fs dir cityID theaterID date now now2 days
    constructor
    · intro _ h2
      simp [LoadSessionCache, SaveSessionCache, loadCache, saveCache, h2]
    · intro h
      have h2 : ¬ (now2 - now ≤ sessionCacheTTL) := by omega
      simp [LoadSessionCache, SaveSessionCache, loadCache, saveCache, h2]

/-- C7 witness: round-trips through the theorem, one per cache kind, at the
TTL boundary and one nanosecond past it (starting from an empty directory). -/
theorem C7_cache_ttl_roundtrip_witness :
    (LoadCityCache (SaveCityCache (fun _ => none) "d" 0 [{ id := "3558" }])
        "d" cityCacheTTL = ([{ id := "3558" }], true, none)) ∧
    (LoadCityCache (SaveCityCache (fun _ => none) "d" 0 [{ id := "3558" }])
        "d" (cityCacheTTL + 1) = ([{ id := "3558" }], false, none)) ∧
    (LoadTheaterCache (SaveTheaterCache (fun _ => none) "d" "c1" 0 [{ id := "t1" }])
        "d" "c1" theaterCacheTTL = ([{ id := "t1" }], true, none)) ∧
    (LoadSessionCache
        (SaveSessionCache (fun _ => none) "d" "c1" "t1" "2026-02-08" 0 [{ date := "2026-02-08" }])
        "d" "c1" "t1" "2026-02-08" sessionCacheTTL =
      ([{ date := "2026-02-08" }], true, none)) :=
  ⟨(C7_cache_ttl_roundtrip.2.2.2.1 (fun _ => none) "d" 0 cityCacheTTL
      [{ id := "3558" }]).1 (by decide) (by decide),
   (C7_cache_ttl_roundtrip.2.2.2.1 (fun _ => none) "d" 0 (cityCacheTTL + 1)
      [{ id := "3558" }]).2 (by decide),
   (C7_cache_ttl_roundtrip.2.2.2.2.1 (fun _ => none) "d" "c1" 0 theaterCacheTTL
      [{ id := "t1" }]).1 (by decide) (by decide),
   (C7_cache_ttl_roundtrip.2.2.2.2.2 (fun _ => none) "d" "c1" "t1" "2026-02-08" 0
      sessionCacheTTL [{ date := "2026-02-08" }]).1 (by decide) (by decide)⟩

/-- C8: for each cache kind, loading a key whose backing file does not exist
returns empty data, `isFresh = false` (the zero envelope timestamp lies
farther in the past than any TTL once the clock has passed the TTL mark,
which a real clock always has), and no error; loading a file that fails to
decode surfaces the decode error (with empty data and `isFresh = false`)
instead of ignoring it. -/
theorem C8_cache_miss_and_decode_error :
    (∀ (fs : CacheFS (List City)) (dir : String) (now : Int),
      fs (cachePath dir "cities.json") = none → cityCacheTTL < now →
        LoadCityCache fs dir now = ([], false, none)) ∧
    (∀ (fs : CacheFS (List City)) (dir msg : String) (now : Int),
      fs (cachePath dir "cities.json") = some (.corrupt msg) →
        LoadCityCache fs dir now = ([], false, some (.decode msg))) ∧
    (∀ (fs : CacheFS (List Theater)) (dir cityID : String) (now : Int),
      fs (cachePath dir ("theaters_" ++ cityID ++ ".json")) = none →
        theaterCacheTTL < now →
        LoadTheaterCache fs dir cityID now = ([], false, none)) ∧
    (∀ (fs : CacheFS (List Theater)) (dir cityID msg : String) (now : Int),
      fs (cachePath dir ("theaters_" ++ cityID ++ ".json")) = some (.corrupt msg) →
        LoadTheaterCache fs dir cityID now = ([], false, some (.decode msg))) ∧
    (∀ (fs : CacheFS (List TheaterSessionDay))
        (dir cityID theaterID date : String) (now : Int),
      fs (cachePath dir
          ("sessions_" ++ cityID ++ "_" ++ theaterID ++ "_" ++ date ++ ".json")) = none →
        sessionCacheTTL < now →
        LoadSessionCache fs dir cityID theaterID date now = ([], false, none)) ∧
    (∀ (fs : CacheFS (List TheaterSessionDay))
        (dir cityID theaterID date msg : String) (now : Int),
      fs (cachePath dir
          ("sessions_" ++ cityID ++ "_" ++ theaterID ++ "_" ++ date ++ ".json")) =
          some (.corrupt msg) →
        LoadSessionCache fs dir cityID theaterID date now =
          ([], false, some (.decode msg))) := by
  refine ⟨?_, ?_, ?_, ?_, ?_, ?_⟩
  · intro fs dir now hmiss httl
    have h2 : ¬ (now - 0 ≤ cityCacheTTL) := by omega
    simp [LoadCityCache, loadCache, hmiss, h2]
    exact ⟨rfl, httl⟩
  · intro fs dir msg now hcorrupt
    simp [LoadCityCache, loadCache, hcorrupt]
  · intro fs dir cityID now hmiss httl
    have h2 : ¬ (now - 0 ≤ theaterCacheTTL) := by omega
    simp [LoadTheaterCache, loadCache, hmiss, h2]
    exact ⟨rfl, httl⟩
  · intro fs dir cityID msg now hcorrupt
    simp [LoadTheaterCache, loadCache, hcorrupt]
  · intro fs dir cityID theaterID date now hmiss httl
    have h2 : ¬ (now - 0 ≤ sessionCacheTTL) := by omega
    simp [LoadSessionCache, loadCache, hmiss, h2]
    exact ⟨rfl, httl⟩
  · intro fs dir cityID theaterID date msg now hcorrupt
    simp [LoadSessionCache, loadCache, hcorrupt]

/-- C8 witness: an empty directory misses without error for every kind, and
a corrupt city file surfaces its decode error, all through the theorem. -/
theorem C8_cache_miss_and_decode_error_witness :
    LoadCityCache (fun _ => none) "d" (cityCacheTTL + 1) = ([], false, none) ∧
    LoadCityCache (fun _ => some (.corrupt "bad json")) "d" 5 =
      ([], false, some (.decode "bad json")) ∧
    LoadTheaterCache (fun _ => none) "d" "c1" (theaterCacheTTL + 1) =
      ([], false, none) ∧
    LoadSessionCache (fun _ => none) "d" "c1" "t1" "2026-02-08"
      (sessionCacheTTL + 1) = ([], false, none) :=
  ⟨C8_cache_miss_and_decode_error.1 (fun _ => none) "d" (cityCacheTTL + 1)
      rfl (by decide),
   C8_cache_miss_and_decode_error.2.1 (fun _ => some (.corrupt "bad json"))
      "d" "bad json" 5 rfl,
   C8_cache_miss_and_decode_error.2.2.1 (fun _ => none) "d" "c1"
      (theaterCacheTTL + 1) rfl (by decide),
   C8_cache_miss_and_decode_error.2.2.2.2.1 (fun _ => none) "d" "c1" "t1"
      "2026-02-08" (sessionCacheTTL + 1) rfl (by decide)⟩

/-! ## Navigation state machine fragment (tui/app.go) -/

/-- The screen states (the `state*` constants of tui/app.go). -/
inductive NavState where
  | loadingCities
  | selectCity
  | loadingTheaters
  | selectTheater
  | manageTheaters
  | loadingSessions
  | selectMovie
  | showSessions
  | selectDate
  | loadingSeatMap
  | selectSection
  | showSeatMap
  | error
deriving Repr, DecidableEq

/-- The fields of `appModel` (tui/app.go) that the error-recovery day
advance reads and writes.  Dates are carried at day granularity, so
`truncateDate(date.AddDate(0, 0, 1))` is `date + 1`. -/
structure appModel where
  state : NavState := .loadingCities
  date : Int := 0
  errorSuggestNextDay : Bool := false
  browsingAllTheaters : Bool := false
  city : City := {}
  theater : Theater := {}
  theaters : List Theater := []
  hiddenTheaters : List String := []
deriving Repr, DecidableEq

/-- `visibleTheaters` (tui/app.go): the theaters whose id is not hidden, in
order. -/
def visibleTheaters (m : appModel) : List Theater :=
  m.theaters.filter fun th => !(m.hiddenTheaters.contains th.id)

/-- The commands this fragment can issue, as data (each fetch is batched
with a spinner tick in Go, which changes no state). -/
inductive NavCmd where
  | fetchMovieCatalog (cityID : String) (theaters : List Theater) (date : Int)
  | fetchSessions (cityID theaterID : String) (date : Int)
  | errWithOptions (msg : String) (recover : NavState) (suggestNextDay : Bool)
deriving Repr, DecidableEq

/-- `advanceToNextDayFromError` (tui/app.go). -/
def advanceToNextDayFromError (m : appModel) : appModel × NavCmd :=
  let m := { m with date := m.date + 1, state := NavState.loadingSessions,
                    errorSuggestNextDay := false }
  if m.browsingAllTheaters then
    let visible := visibleTheaters m
    if visible.isEmpty then
      (m, .errWithOptions "no visible theaters selected" .selectTheater false)
    else
      (m, .fetchMovieCatalog m.city.id visible m.date)
  else if m.city.id = "" ∨ m.theater.id = "" then
    (m, .errWithOptions "select a theater before trying another date"
      .selectTheater false)
  else
    (m, .fetchSessions m.city.id m.theater.id m.date)

/-- The `KeyEnter` guard of `handleKey` (tui/app.go): in the `Error` state
with the suggest-next-day flag set, enter triggers the day advance; `none`
means enter falls through to the per-screen selection handling, which is
outside this fragment. -/
def handleEnterInError (m : appModel) : Option (appModel × NavCmd) :=
  if m.state = NavState.error ∧ m.errorSuggestNextDay then
    some (advanceToNextDayFromError m)
  else none

/-- C9: in the Error state with `suggestNextDay` set, confirm (enter) routes
to the day advance, which adds exactly one day, returns to the loading
state, and re-issues the fetch kind that was active before the error:
the cross-theater catalog fetch over the visible theaters when cross-theater
browsing was on, otherwise the single-theater session fetch for the selected
city and theater — both at the advanced date. -/
theorem C9_error_confirm_advances_one_day (m : appModel)
    (h1 : m.state = NavState.error) (h2 : m.errorSuggestNextDay = true) :
    handleEnterInError m = some (advanceToNextDayFromError m) ∧
    (advanceToNextDayFromError m).1.date = m.date + 1 ∧
    (advanceToNextDayFromError m).1.state = NavState.loadingSessions ∧
    (advanceToNextDayFromError m).1.errorSuggestNextDay = false ∧
    (m.browsingAllTheaters = true → visibleTheaters m ≠ [] →
      (advanceToNextDayFromError m).2 =
        .fetchMovieCatalog m.city.id (visibleTheaters m) (m.date + 1)) ∧
    (m.browsingAllTheaters = false → m.city.id ≠ "" → m.theater.id ≠ "" →
      (advanceToNextDayFromError m).2 =
        .fetchSessions m.city.id m.theater.id (m.date + 1)) := by
  have hvisg : ∀ (st : NavState) (d : Int) (e b : Bool),
      visibleTheaters
        { state := st, date := d, errorSuggestNextDay := e, browsingAllTheaters := b,
          city := m.city, theater := m.theater, theaters := m.theaters,
          hiddenTheaters := m.hiddenTheaters } =
      visibleTheaters m := fun _ _ _ _ => rfl
  refine ⟨?_, ?_, ?_, ?_, ?_, ?_⟩
  · simp [handleEnterInError, h1, h2]
  · unfold advanceToNextDayFromError
    dsimp only
    split_ifs <;> rfl
  · unfold advanceToNextDayFromError
    dsimp only
    split_ifs <;> rfl
  · unfold advanceToNextDayFromError
    dsimp only
    split_ifs <;> rfl
  · intro hb hvne
    unfold advanceToNextDayFromError
    dsimp only
    simp [hb, hvisg, hvne]
  · intro hb hcity htheater
    unfold advanceToNextDayFromError
    dsimp only
    simp [hb, hcity, htheater]

/-- C9 witness: a concrete error-state model in single-theater mode advances
from day 10 to day 11 and refetches the same city and theater, via the
theorem. -/
theorem C9_error_confirm_advances_one_day_witness :
    ({ state := NavState.error, errorSuggestNextDay := true, date := 10,
       city := { id := "3558" }, theater := { id := "t1" } } : appModel).state =
        NavState.error ∧
    (handleEnterInError
        { state := NavState.error, errorSuggestNextDay := true, date := 10,
          city := { id := "3558" }, theater := { id := "t1" } } =
      some (advanceToNextDayFromError
        { state := NavState.error, errorSuggestNextDay := true, date := 10,
          city := { id := "3558" }, theater := { id := "t1" } }) ∧
     (advanceToNextDayFromError
        { state := NavState.error, errorSuggestNextDay := true, date := 10,
          city := { id := "3558" }, theater := { id := "t1" } }).1.date = 10 + 1 ∧
     (advanceToNextDayFromError
        { state := NavState.error, errorSuggestNextDay := true, date := 10,
          city := { id := "3558" }, theater := { id := "t1" } }).2 =
       .fetchSessions "3558" "t1" (10 + 1)) :=
  ⟨rfl,
   (C9_error_confirm_advances_one_day
      { state := NavState.error, errorSuggestNextDay := true, date := 10,
        city := { id := "3558" }, theater := { id := "t1" } } rfl rfl).1,
   (C9_error_confirm_advances_one_day
      { state := NavState.error, errorSuggestNextDay := true, date := 10,
        city := { id := "3558" }, theater := { id := "t1" } } rfl rfl).2.1,
   (C9_error_confirm_advances_one_day
      { state := NavState.error, errorSuggestNextDay := true, date := 10,
        city := { id := "3558" }, theater := { id := "t1" } } rfl rfl).2.2.2.2.2
     rfl (by decide) (by decide)⟩

end Ingresso
